import Mathlib

/-!
Verification model of `src/look_transform.rs` (smooth-bevy-cameras).

The source manipulates `f32` scalars and `glam::Vec3` vectors.  We model an
`f32` value by the type `F` below: either NaN, a signed infinity, or a finite
value carried exactly as a rational number.  Arithmetic on `F` follows the
IEEE-754 special-value rules (NaN propagation, `0 * inf = NaN`, `1/0 = +inf`,
and so on) while finite arithmetic is exact — rounding is idealised away, and
the single rational `0` stands for both signed zeros.  Square roots are exact
on perfect rational squares; a square root that is not exactly representable
as a rational lies outside the fragment this model covers and is mapped to
NaN.  Every theorem below either evaluates the model on concrete inputs whose
square roots are exact, or carries hypotheses exhibiting the exact roots.
-/

/-- Exact rational square root: `some s` when `q` is a perfect rational square
with `s` its nonnegative root, `none` otherwise. -/
def ratSqrt (q : ℚ) : Option ℚ :=
  if Rat.sqrt q * Rat.sqrt q = q then some (Rat.sqrt q) else none

/-- Model of an `f32` value: NaN, a signed infinity (`true` = `+∞`), or a
finite value represented exactly as a rational. -/
inductive F where
  | nan : F
  | inf : Bool → F
  | fin : ℚ → F
deriving DecidableEq

/-- IEEE addition on the model (finite arithmetic exact). -/
def F.add : F → F → F
  | .nan, _ => .nan
  | _, .nan => .nan
  | .inf s, .inf t => if s = t then .inf s else .nan
  | .inf s, .fin _ => .inf s
  | .fin _, .inf t => .inf t
  | .fin a, .fin b => .fin (a + b)

/-- IEEE negation on the model. -/
def F.neg : F → F
  | .nan => .nan
  | .inf s => .inf (!s)
  | .fin a => .fin (-a)

/-- IEEE subtraction: `a - b = a + (-b)` exactly in IEEE-754. -/
def F.sub (a b : F) : F := a.add b.neg

/-- IEEE multiplication on the model; `0 * ∞ = NaN`. -/
def F.mul : F → F → F
  | .nan, _ => .nan
  | _, .nan => .nan
  | .inf s, .inf t => .inf (s = t)
  | .inf s, .fin q => if q = 0 then .nan else .inf (s = decide (0 < q))
  | .fin q, .inf t => if q = 0 then .nan else .inf (t = decide (0 < q))
  | .fin a, .fin b => .fin (a * b)

/-- IEEE division on the model; `x/0 = ±∞` for `x ≠ 0`, `0/0 = NaN`,
`∞/∞ = NaN` (the model's single zero stands for `+0`). -/
def F.div : F → F → F
  | .nan, _ => .nan
  | _, .nan => .nan
  | .inf _, .inf _ => .nan
  | .inf s, .fin q => if q = 0 then .inf s else .inf (s = decide (0 < q))
  | .fin _, .inf _ => .fin 0
  | .fin a, .fin b =>
    if b = 0 then (if a = 0 then .nan else .inf (decide (0 < a))) else .fin (a / b)

/-- IEEE square root on the model; negative inputs give NaN, and roots that
are not exact rationals are outside the covered fragment (mapped to NaN). -/
def F.sqrt : F → F
  | .nan => .nan
  | .inf s => if s then .inf true else .nan
  | .fin q =>
    if q < 0 then .nan else
      match ratSqrt q with
      | some s => .fin s
      | none => .nan

/-- `f32::is_finite`. -/
def F.isFinite : F → Bool
  | .fin _ => true
  | _ => false

/-- IEEE `<` (false whenever either side is NaN). -/
def F.blt : F → F → Bool
  | .nan, _ => false
  | _, .nan => false
  | .inf s, .inf t => !s && t
  | .inf s, .fin _ => !s
  | .fin _, .inf t => t
  | .fin a, .fin b => decide (a < b)

/-- IEEE `<=` (false whenever either side is NaN). -/
def F.ble : F → F → Bool
  | .nan, _ => false
  | _, .nan => false
  | .inf s, .inf t => s = t || (!s && t)
  | .inf s, .fin _ => !s
  | .fin _, .inf t => t
  | .fin a, .fin b => decide (a ≤ b)

/-- `f32::recip`, i.e. `1.0 / x`, as used by `glam`'s `length_recip`. -/
def F.recip (a : F) : F := F.div (.fin 1) a

/-- Is the value NaN? -/
def F.isNaN : F → Bool
  | .nan => true
  | _ => false

/-- Model of `glam::Vec3` with `F`-valued components. -/
structure Vec3F where
  x : F
  y : F
  z : F
deriving DecidableEq

/-- Componentwise vector addition. -/
def Vec3F.add (a b : Vec3F) : Vec3F := ⟨a.x.add b.x, a.y.add b.y, a.z.add b.z⟩

/-- Componentwise vector subtraction. -/
def Vec3F.sub (a b : Vec3F) : Vec3F := ⟨a.x.sub b.x, a.y.sub b.y, a.z.sub b.z⟩

/-- `Vec3 * f32`: each component multiplied by the scalar on the right. -/
def Vec3F.scale (a : Vec3F) (s : F) : Vec3F := ⟨a.x.mul s, a.y.mul s, a.z.mul s⟩

/-- `Vec3::dot`. -/
def Vec3F.dot (a b : Vec3F) : F :=
  ((a.x.mul b.x).add (a.y.mul b.y)).add (a.z.mul b.z)

/-- `Vec3::cross`. -/
def Vec3F.cross (a b : Vec3F) : Vec3F :=
  ⟨(a.y.mul b.z).sub (a.z.mul b.y),
   (a.z.mul b.x).sub (a.x.mul b.z),
   (a.x.mul b.y).sub (a.y.mul b.x)⟩

/-- `Vec3::length` = `sqrt(dot(self, self))`. -/
def Vec3F.length (a : Vec3F) : F := (a.dot a).sqrt

/-- `Vec3::length_recip` = `1.0 / length`. -/
def Vec3F.length_recip (a : Vec3F) : F := a.length.recip

/-- `Vec3::normalize` = `self * self.length_recip()` (glam; NaN on the zero
vector, since `0 * (1/0) = 0 * ∞ = NaN`). -/
def Vec3F.normalize (a : Vec3F) : Vec3F := a.scale a.length_recip

/-- `Vec3::try_normalize` (glam): `Some(self * rcp)` when `rcp = 1/length` is
finite and positive, `None` otherwise. -/
def Vec3F.try_normalize (a : Vec3F) : Option Vec3F :=
  let rcp := a.length_recip
  if rcp.isFinite && F.blt (.fin 0) rcp then some (a.scale rcp) else none

/-- Does any component equal NaN? -/
def Vec3F.hasNaN (a : Vec3F) : Bool := a.x.isNaN || a.y.isNaN || a.z.isNaN

/-- A vector of exact rational components, used to state theorems about the
finite fragment of the model. -/
structure Vec3Q where
  x : ℚ
  y : ℚ
  z : ℚ
deriving DecidableEq

/-- Inject exact rational components into the `f32` model. -/
def Vec3Q.toF (a : Vec3Q) : Vec3F := ⟨.fin a.x, .fin a.y, .fin a.z⟩

def Vec3Q.add (a b : Vec3Q) : Vec3Q := ⟨a.x + b.x, a.y + b.y, a.z + b.z⟩

def Vec3Q.sub (a b : Vec3Q) : Vec3Q := ⟨a.x - b.x, a.y - b.y, a.z - b.z⟩

def Vec3Q.smul (a : Vec3Q) (s : ℚ) : Vec3Q := ⟨a.x * s, a.y * s, a.z * s⟩

def Vec3Q.dot (a b : Vec3Q) : ℚ := a.x * b.x + a.y * b.y + a.z * b.z

def Vec3Q.cross (a b : Vec3Q) : Vec3Q :=
  ⟨a.y * b.z - a.z * b.y, a.z * b.x - a.x * b.z, a.x * b.y - a.y * b.x⟩

/-- `LookTransform` (src/look_transform.rs lines 24-30): eye and target
positions, an up vector, and the crate-internal `enabled` flag. -/
structure LookTransform where
  eye : Vec3F
  target : Vec3F
  up : Vec3F
  enabled : Bool
deriving DecidableEq

/-- `LookTransform::new(eye, target)`: up is `Vec3::Y`, enabled is `true`
(the constructor exposes no way to choose either). -/
def LookTransform.new (eye target : Vec3F) : LookTransform :=
  { eye := eye, target := target, up := ⟨.fin 0, .fin 1, .fin 0⟩, enabled := true }

/-- `LookTransform::radius` = `(target - eye).length()`. -/
def LookTransform.radius (t : LookTransform) : F :=
  (Vec3F.sub t.target t.eye).length

/-- `LookTransform::look_direction` = `(target - eye).try_normalize()`. -/
def LookTransform.look_direction (t : LookTransform) : Option Vec3F :=
  (Vec3F.sub t.target t.eye).try_normalize

/-- Model of the written part of bevy's `Transform`: the translation and the
orientation expressed as its rotation basis (right/up/forward axes).  The
source stores the orientation as a quaternion; the basis it is built from is
the faithful shallow embedding of the same data (the quaternion is NaN-free
and orthonormal exactly when the basis is). -/
structure TransformM where
  translation : Vec3F
  right : Vec3F
  up : Vec3F
  forward : Vec3F
deriving DecidableEq

/-- `Transform::from_translation`: identity rotation (right = +X, up = +Y,
forward = -Z in bevy's convention). -/
def TransformM.from_translation (v : Vec3F) : TransformM :=
  { translation := v
    right := ⟨.fin 1, .fin 0, .fin 0⟩
    up := ⟨.fin 0, .fin 1, .fin 0⟩
    forward := ⟨.fin 0, .fin 0, .fin (-1)⟩ }

/-- Modelled from the spec: bevy's `Transform::looking_at(target, up)` — an
external dependency, not part of src/ — following the spec's standard look-at
basis construction: `forward = normalize(target - translation)`,
`right = normalize(cross(forward, up))`, `up = cross(right, forward)`. -/
def TransformM.looking_at (t : TransformM) (target up : Vec3F) : TransformM :=
  let forward := (Vec3F.sub target t.translation).normalize
  let right := (forward.cross up).normalize
  let newUp := right.cross forward
  { t with right := right, up := newUp, forward := forward }

/-- `eye_look_at_target_transform` (src/look_transform.rs lines 57-63). -/
def eye_look_at_target_transform (eye target up : Vec3F) : TransformM :=
  let look_vector := (Vec3F.sub target eye).normalize
  let look_at := Vec3F.add eye look_vector
  (TransformM.from_translation eye).looking_at look_at up

/-- `impl From<LookTransform> for Transform`. -/
def LookTransform.toTransform (t : LookTransform) : TransformM :=
  eye_look_at_target_transform t.eye t.target t.up

/-- Does any field of the transform contain NaN? -/
def TransformM.hasNaN (t : TransformM) : Bool :=
  t.translation.hasNaN || t.right.hasNaN || t.up.hasNaN || t.forward.hasNaN

/-- `Smoother` (src/look_transform.rs): lag weight and the previously emitted
smoothed value (`lerp_tfm`), absent before the first call. -/
structure Smoother where
  lag_weight : F
  lerp_tfm : Option LookTransform
deriving DecidableEq

/-- `Smoother::new(lag_weight)`. -/
def Smoother.new (lag_weight : F) : Smoother :=
  { lag_weight := lag_weight, lerp_tfm := none }

/-- `Smoother::set_lag_weight`: stores the given weight verbatim. -/
def Smoother.set_lag_weight (s : Smoother) (lag_weight : F) : Smoother :=
  { s with lag_weight := lag_weight }

/-- The two `debug_assert!` checks at the top of `Smoother::smooth_transform`:
`0.0 <= lag_weight && lag_weight < 1.0` (IEEE comparisons). -/
def Smoother.smooth_transform_debug_asserts (s : Smoother) : Bool :=
  F.ble (.fin 0) s.lag_weight && F.blt s.lag_weight (.fin 1)

/-- `Smoother::smooth_transform(&mut self, new_tfm)` in state-passing form:
returns the emitted value and the updated smoother. -/
def Smoother.smooth_transform (s : Smoother) (new_tfm : LookTransform) :
    LookTransform × Smoother :=
  let old_lerp_tfm := s.lerp_tfm.getD new_tfm
  let lerp_tfm :=
    if new_tfm.enabled && old_lerp_tfm.enabled then
      let lead_weight := F.sub (.fin 1) s.lag_weight
      { new_tfm with
        eye := Vec3F.add (old_lerp_tfm.eye.scale s.lag_weight)
                         (new_tfm.eye.scale lead_weight)
        target := Vec3F.add (old_lerp_tfm.target.scale s.lag_weight)
                            (new_tfm.target.scale lead_weight) }
    else
      new_tfm
  (lerp_tfm, { s with lerp_tfm := some lerp_tfm })

/-- One entity as seen by `look_transform_system`'s query: a `LookTransform`,
the scene `Transform`, and an optional `Smoother`. -/
structure CameraEntity where
  look_transform : LookTransform
  scene_transform : TransformM
  smoother : Option Smoother
deriving DecidableEq

/-- The effective (possibly smoothed) look transform the system converts. -/
def effectiveLookTransform (e : CameraEntity) : LookTransform :=
  match e.smoother with
  | some s => (s.smooth_transform e.look_transform).1
  | none => e.look_transform

/-- The body of `look_transform_system`'s loop for one entity: smooth when a
smoother is attached, then overwrite the scene transform only when the source
`LookTransform` is enabled. -/
def look_transform_step (e : CameraEntity) : CameraEntity :=
  let smoother := match e.smoother with
    | some s => some (s.smooth_transform e.look_transform).2
    | none => none
  if e.look_transform.enabled then
    { e with scene_transform := (effectiveLookTransform e).toTransform
             smoother := smoother }
  else
    { e with smoother := smoother }

/-- `look_transform_system` (src/look_transform.rs lines 110-124): each
queried entity is updated independently. -/
def look_transform_system (cameras : List CameraEntity) : List CameraEntity :=
  cameras.map look_transform_step

/-- The documented invariant on a stored lag weight: a finite value in
`[0.0, 1.0)`. -/
def lagWeightInRangeB : F → Bool
  | .fin q => decide (0 ≤ q ∧ q < 1)
  | _ => false

/-- A sample camera entity with a disabled `LookTransform`, a smoother, and an
arbitrary prior scene transform, used to exercise the update routine. -/
def sampleDisabledCamera : CameraEntity :=
  { look_transform := LookTransform.mk (Vec3Q.mk 1 2 3).toF (Vec3Q.mk 4 5 6).toF
      (Vec3Q.mk 0 1 0).toF false
    scene_transform := TransformM.from_translation (Vec3Q.mk 9 9 9).toF
    smoother := some (Smoother.new (.fin (1/2))) }

/-- A sample camera entity with an enabled `LookTransform` and no smoother. -/
def sampleEnabledCamera : CameraEntity :=
  { look_transform := LookTransform.mk (Vec3Q.mk 0 0 5).toF (Vec3Q.mk 0 0 0).toF
      (Vec3Q.mk 0 1 0).toF true
    scene_transform := TransformM.from_translation (Vec3Q.mk 9 9 9).toF
    smoother := none }

theorem ratSqrt_mul_self (s : ℚ) (hs : 0 ≤ s) : ratSqrt (s * s) = some s := by
  unfold ratSqrt
  rw [Rat.sqrt_eq, abs_of_nonneg hs, if_pos rfl]

theorem F.sub_fin (a b : ℚ) : F.sub (.fin a) (.fin b) = .fin (a - b) := by
  simp [F.sub, F.add, F.neg, sub_eq_add_neg]

theorem Vec3F.add_toF (a b : Vec3Q) : Vec3F.add a.toF b.toF = (a.add b).toF := rfl

theorem Vec3F.sub_toF (a b : Vec3Q) : Vec3F.sub a.toF b.toF = (a.sub b).toF := by
  simp [Vec3F.sub, Vec3Q.toF, Vec3Q.sub, F.sub_fin]

theorem Vec3F.scale_toF (a : Vec3Q) (s : ℚ) :
    Vec3F.scale a.toF (.fin s) = (a.smul s).toF := rfl

theorem Vec3F.dot_toF (a b : Vec3Q) : Vec3F.dot a.toF b.toF = .fin (a.dot b) := rfl

theorem Vec3F.cross_toF (a b : Vec3Q) :
    Vec3F.cross a.toF b.toF = (a.cross b).toF := by
  simp [Vec3F.cross, Vec3Q.toF, Vec3Q.cross, F.mul, F.sub_fin]

/-- Evaluation of `ratSqrt` at the literals the concrete inputs below hit. -/
theorem ratSqrt_zero : ratSqrt 0 = some 0 := by
  have := ratSqrt_mul_self 0 le_rfl
  simpa using this

theorem ratSqrt_one : ratSqrt 1 = some 1 := by
  have := ratSqrt_mul_self 1 zero_le_one
  simpa using this

theorem ratSqrt_25 : ratSqrt 25 = some 5 := by
  have := ratSqrt_mul_self 5 (by norm_num)
  rw [show (5 * 5 : ℚ) = 25 by norm_num] at this
  exact this

/-- C2: if the new value is disabled, or the stored previous smoothed value
(the new value itself when none is stored) is disabled, `smooth_transform`
returns the new value unchanged in every field, with no interpolation. -/
theorem smooth_transform_bypass (s : Smoother) (v : LookTransform)
    (h : v.enabled = false ∨ (s.lerp_tfm.getD v).enabled = false) :
    (s.smooth_transform v).1 = v := by
  unfold Smoother.smooth_transform
  rcases h with h | h <;> simp [h]

theorem smooth_transform_bypass_witness :
    ((LookTransform.mk (Vec3Q.mk 1 2 3).toF (Vec3Q.mk 0 0 0).toF
        (Vec3Q.mk 0 1 0).toF true).enabled = false ∨
      ((Smoother.mk (.fin (1/2)) (some (LookTransform.mk (Vec3Q.mk 0 0 0).toF
        (Vec3Q.mk 0 0 0).toF (Vec3Q.mk 0 1 0).toF false))).lerp_tfm.getD
        (LookTransform.mk (Vec3Q.mk 1 2 3).toF (Vec3Q.mk 0 0 0).toF
        (Vec3Q.mk 0 1 0).toF true)).enabled = false) ∧
    ((Smoother.mk (.fin (1/2)) (some (LookTransform.mk (Vec3Q.mk 0 0 0).toF
        (Vec3Q.mk 0 0 0).toF (Vec3Q.mk 0 1 0).toF false))).smooth_transform
      (LookTransform.mk (Vec3Q.mk 1 2 3).toF (Vec3Q.mk 0 0 0).toF
        (Vec3Q.mk 0 1 0).toF true)).1 =
      LookTransform.mk (Vec3Q.mk 1 2 3).toF (Vec3Q.mk 0 0 0).toF
        (Vec3Q.mk 0 1 0).toF true :=
  ⟨Or.inr rfl, smooth_transform_bypass _ _ (Or.inr rfl)⟩

/-- C3: when both the new value and the stored previous smoothed value are
enabled and the lag weight is a finite `w` in `[0,1)`, the result blends the
positions — `eye = previous.eye * w + new.eye * (1 - w)` componentwise, same
for `target` — and takes `up` and `enabled` verbatim from the new value. -/
theorem smooth_transform_blend (s : Smoother) (v old : LookTransform) (w : ℚ)
    (hw : s.lag_weight = .fin w) (h0 : 0 ≤ w) (h1 : w < 1)
    (hold : s.lerp_tfm = some old)
    (hv : v.enabled = true) (ho : old.enabled = true)
    (oe ot ve vt : Vec3Q)
    (he : old.eye = oe.toF) (ht : old.target = ot.toF)
    (hve : v.eye = ve.toF) (hvt : v.target = vt.toF) :
    (s.smooth_transform v).1 =
      { v with eye := ((oe.smul w).add (ve.smul (1 - w))).toF
               target := ((ot.smul w).add (vt.smul (1 - w))).toF } := by
  unfold Smoother.smooth_transform
  simp only [hold, Option.getD_some, hv, ho, Bool.and_self, if_pos]
  rw [hw, he, ht, hve, hvt, F.sub_fin, Vec3F.scale_toF, Vec3F.scale_toF,
    Vec3F.scale_toF, Vec3F.scale_toF, Vec3F.add_toF, Vec3F.add_toF]

theorem smooth_transform_blend_witness :
    (0 ≤ (1/2 : ℚ)) ∧ ((1/2 : ℚ) < 1) ∧
    ((Smoother.mk (.fin (1/2)) (some (LookTransform.mk (Vec3Q.mk 0 0 0).toF
        (Vec3Q.mk 0 0 2).toF (Vec3Q.mk 0 1 0).toF true))).smooth_transform
      (LookTransform.mk (Vec3Q.mk 2 4 6).toF (Vec3Q.mk 0 0 4).toF
        (Vec3Q.mk 1 0 0).toF true)).1 =
      { LookTransform.mk (Vec3Q.mk 2 4 6).toF (Vec3Q.mk 0 0 4).toF
          (Vec3Q.mk 1 0 0).toF true with
        eye := (((Vec3Q.mk 0 0 0).smul (1/2)).add
          ((Vec3Q.mk 2 4 6).smul (1 - 1/2))).toF
        target := (((Vec3Q.mk 0 0 2).smul (1/2)).add
          ((Vec3Q.mk 0 0 4).smul (1 - 1/2))).toF } :=
  ⟨by norm_num, by norm_num,
    smooth_transform_blend _ _ _ (1/2) rfl (by norm_num) (by norm_num) rfl rfl rfl
      (Vec3Q.mk 0 0 0) (Vec3Q.mk 0 0 2) (Vec3Q.mk 2 4 6) (Vec3Q.mk 0 0 4)
      rfl rfl rfl rfl⟩

/-- C5: with a finite lag weight and finite positions, `smooth_transform v`
returns `v` exactly when the stored previous smoothed state is absent (first
call) or equal to `v` — blending a value with itself is the identity. -/
theorem smooth_transform_fixed_point (s : Smoother) (v : LookTransform) (w : ℚ)
    (hw : s.lag_weight = .fin w)
    (ve vt : Vec3Q) (hve : v.eye = ve.toF) (hvt : v.target = vt.toF)
    (hold : s.lerp_tfm = none ∨ s.lerp_tfm = some v) :
    (s.smooth_transform v).1 = v := by
  unfold Smoother.smooth_transform
  have hgetd : s.lerp_tfm.getD v = v := by rcases hold with h | h <;> simp [h]
  simp only [hgetd]
  cases hen : v.enabled
  · simp
  · simp only [Bool.and_self, if_pos]
    rw [hw, hve, hvt, F.sub_fin, Vec3F.scale_toF, Vec3F.scale_toF, Vec3F.scale_toF,
      Vec3F.scale_toF, Vec3F.add_toF, Vec3F.add_toF]
    have harith : ∀ a : Vec3Q, (a.smul w).add (a.smul (1 - w)) = a := by
      intro a
      cases a
      simp only [Vec3Q.smul, Vec3Q.add, Vec3Q.mk.injEq]
      refine ⟨by ring, by ring, by ring⟩
    rw [harith, harith, ← hve, ← hvt, ← hen]

theorem smooth_transform_fixed_point_witness :
    ((Smoother.new (.fin (1/2))).smooth_transform
      (LookTransform.mk (Vec3Q.mk 1 2 3).toF (Vec3Q.mk 4 5 6).toF
        (Vec3Q.mk 0 1 0).toF true)).1 =
      LookTransform.mk (Vec3Q.mk 1 2 3).toF (Vec3Q.mk 4 5 6).toF
        (Vec3Q.mk 0 1 0).toF true :=
  smooth_transform_fixed_point _ _ (1/2) rfl (Vec3Q.mk 1 2 3) (Vec3Q.mk 4 5 6)
    rfl rfl (Or.inl rfl)

/-- C8: after every call to `smooth_transform`, whichever branch ran, the
stored `lerp_tfm` equals the value the call returned. -/
theorem smooth_transform_stores_output (s : Smoother) (v : LookTransform) :
    (s.smooth_transform v).2.lerp_tfm = some (s.smooth_transform v).1 := rfl

/-- C9 counterexample: `set_lag_weight` neither rejects nor clamps: storing
`2.0` leaves a stored lag weight outside `[0.0, 1.0)`. -/
theorem set_lag_weight_no_clamp :
    ((Smoother.new (.fin 0)).set_lag_weight (.fin 2)).lag_weight = .fin 2 ∧
    lagWeightInRangeB (.fin 2) = false := by
  refine ⟨rfl, ?_⟩
  norm_num [lagWeightInRangeB]

/-- C9 (amended): the mutator stores the given lag weight verbatim, without
rejection or clamping; the `[0.0, 1.0)` range is checked only by the
debug-time assertions at the top of `smooth_transform`, which hold exactly
when the stored weight is finite and in range. -/
theorem set_lag_weight_verbatim_and_debug_asserts (s : Smoother) (w : F) :
    (s.set_lag_weight w).lag_weight = w ∧
    (s.set_lag_weight w).smooth_transform_debug_asserts = lagWeightInRangeB w := by
  refine ⟨rfl, ?_⟩
  cases w with
  | nan => rfl
  | inf b => cases b <;> rfl
  | fin q =>
    simp [Smoother.smooth_transform_debug_asserts, Smoother.set_lag_weight,
      lagWeightInRangeB, F.ble, F.blt, Bool.decide_and]

/-- C10: `LookTransform::new(eye, target)` always has `up = Vec3::Y` and
`enabled = true`; the constructor takes no argument that could change
either. -/
theorem LookTransform_new_up_and_enabled (eye target : Vec3F) :
    (LookTransform.new eye target).up = (Vec3Q.mk 0 1 0).toF ∧
    (LookTransform.new eye target).enabled = true :=
  ⟨rfl, rfl⟩

theorem look_transform_step_scene (e : CameraEntity) :
    (look_transform_step e).scene_transform =
      if e.look_transform.enabled then (effectiveLookTransform e).toTransform
      else e.scene_transform := by
  unfold look_transform_step
  cases h : e.look_transform.enabled <;> simp [h]

/-- C4: for every entity the per-frame routine processes, when the source
`LookTransform` is disabled the scene transform is left unchanged that frame,
and when it is enabled the scene transform is overwritten with the conversion
of the effective (possibly smoothed) look transform. -/
theorem look_transform_system_gating (cams : List CameraEntity) (i : ℕ)
    (h : i < cams.length) :
    (look_transform_system cams)[i]? = some (look_transform_step (cams.get ⟨i, h⟩)) ∧
    ((cams.get ⟨i, h⟩).look_transform.enabled = false →
      (look_transform_step (cams.get ⟨i, h⟩)).scene_transform =
        (cams.get ⟨i, h⟩).scene_transform) ∧
    ((cams.get ⟨i, h⟩).look_transform.enabled = true →
      (look_transform_step (cams.get ⟨i, h⟩)).scene_transform =
        (effectiveLookTransform (cams.get ⟨i, h⟩)).toTransform) := by
  refine ⟨?_, ?_, ?_⟩
  · simp [look_transform_system, List.getElem?_map, List.getElem?_eq_getElem h,
      List.get_eq_getElem]
  · intro he
    rw [look_transform_step_scene, he]
    simp
  · intro he
    rw [look_transform_step_scene, he]
    simp

theorem look_transform_system_gating_witness :
    ((look_transform_system [sampleDisabledCamera])[0]? =
      some (look_transform_step sampleDisabledCamera)) ∧
    (look_transform_step sampleDisabledCamera).scene_transform =
      sampleDisabledCamera.scene_transform :=
  ⟨(look_transform_system_gating [sampleDisabledCamera] 0 (by norm_num)).1,
   (look_transform_system_gating [sampleDisabledCamera] 0 (by norm_num)).2.1 rfl⟩

theorem Vec3Q.sub_eq_zero_iff (a b : Vec3Q) : a.sub b = ⟨0, 0, 0⟩ ↔ a = b := by
  cases a
  cases b
  simp only [Vec3Q.sub, Vec3Q.mk.injEq]
  rw [sub_eq_zero, sub_eq_zero, sub_eq_zero]

theorem Vec3Q.dot_self_pos (a : Vec3Q) (h : a ≠ ⟨0, 0, 0⟩) : 0 < a.dot a := by
  cases a with
  | mk x y z =>
    rcases lt_or_eq_of_le (mul_self_nonneg x) with hx | hx
    · unfold Vec3Q.dot
      nlinarith [mul_self_nonneg y, mul_self_nonneg z]
    · rcases lt_or_eq_of_le (mul_self_nonneg y) with hy | hy
      · unfold Vec3Q.dot
        nlinarith [mul_self_nonneg z]
      · rcases lt_or_eq_of_le (mul_self_nonneg z) with hz | hz
        · unfold Vec3Q.dot
          nlinarith
        · exfalso
          apply h
          simp only [Vec3Q.mk.injEq]
          exact ⟨mul_self_eq_zero.1 hx.symm, mul_self_eq_zero.1 hy.symm,
            mul_self_eq_zero.1 hz.symm⟩

theorem Vec3Q.dot_smul_smul (a : Vec3Q) (k : ℚ) :
    Vec3Q.dot (a.smul k) (a.smul k) = k * k * Vec3Q.dot a a := by
  unfold Vec3Q.dot Vec3Q.smul
  ring

theorem Vec3F.sqrt_dot_toF (d : Vec3Q) (s : ℚ) (hnn : 0 ≤ s)
    (hs : s * s = Vec3Q.dot d d) : (d.toF).length = .fin s := by
  unfold Vec3F.length
  rw [Vec3F.dot_toF, ← hs]
  simp only [F.sqrt]
  rw [if_neg (not_lt.2 (mul_self_nonneg s)), ratSqrt_mul_self s hnn]

/-- C6: `look_direction()` returns `none` exactly when eye and target
coincide; otherwise (for an exactly-representable length `s`) it returns the
normalization of `target - eye` — a unit-length, NaN-free vector. -/
theorem look_direction_spec (e t : Vec3Q) (u : Vec3F) (en : Bool) (s : ℚ)
    (hs : s * s = Vec3Q.dot (t.sub e) (t.sub e)) (hnn : 0 ≤ s) :
    ((LookTransform.mk e.toF t.toF u en).look_direction = none ↔ e = t) ∧
    (e ≠ t →
      (LookTransform.mk e.toF t.toF u en).look_direction =
        some (((t.sub e).smul (1/s)).toF) ∧
      Vec3F.dot (((t.sub e).smul (1/s)).toF) (((t.sub e).smul (1/s)).toF) = .fin 1 ∧
      (((t.sub e).smul (1/s)).toF).hasNaN = false) := by
  have hld : (LookTransform.mk e.toF t.toF u en).look_direction =
      ((t.sub e).toF).try_normalize := by
    unfold LookTransform.look_direction
    rw [show (LookTransform.mk e.toF t.toF u en).target = t.toF from rfl,
      show (LookTransform.mk e.toF t.toF u en).eye = e.toF from rfl, Vec3F.sub_toF]
  by_cases het : e = t
  · subst het
    have hz : e.sub e = ⟨0, 0, 0⟩ := (Vec3Q.sub_eq_zero_iff e e).2 rfl
    have hnone : ((e.sub e).toF).try_normalize = none := by
      rw [hz]
      norm_num [Vec3F.try_normalize, Vec3F.length_recip, Vec3F.length, Vec3Q.toF,
        Vec3F.dot, F.sqrt, F.recip, F.div, F.mul, F.add, F.isFinite, ratSqrt_zero]
    rw [hld, hnone]
    simp
  · have hd0 : t.sub e ≠ ⟨0, 0, 0⟩ := fun hc => het ((Vec3Q.sub_eq_zero_iff t e).1 hc).symm
    have hpos : 0 < Vec3Q.dot (t.sub e) (t.sub e) := Vec3Q.dot_self_pos _ hd0
    have hs0 : s ≠ 0 := by
      intro hc
      rw [hc] at hs
      exact absurd (hs ▸ hpos) (by norm_num)
    have hspos : 0 < s := lt_of_le_of_ne hnn (Ne.symm hs0)
    have hlen : ((t.sub e).toF).length = .fin s := Vec3F.sqrt_dot_toF _ s hnn hs
    have hrcp : ((t.sub e).toF).length_recip = .fin (1/s) := by
      unfold Vec3F.length_recip F.recip
      rw [hlen]
      simp [F.div, hs0]
    have hsome : ((t.sub e).toF).try_normalize = some (((t.sub e).smul (1/s)).toF) := by
      unfold Vec3F.try_normalize
      rw [hrcp]
      rw [if_pos (by simp [F.isFinite, F.blt, hspos])]
      rw [Vec3F.scale_toF]
    have hunit : Vec3Q.dot ((t.sub e).smul (1/s)) ((t.sub e).smul (1/s)) = 1 := by
      rw [Vec3Q.dot_smul_smul, ← hs]
      field_simp
    refine ⟨?_, fun _ => ⟨hld.trans hsome, ?_, ?_⟩⟩
    · rw [hld, hsome]
      simp [het]
    · rw [Vec3F.dot_toF, hunit]
    · simp [Vec3Q.toF, Vec3F.hasNaN, F.isNaN]

theorem look_direction_spec_witness :
    ((5 : ℚ) * 5 = Vec3Q.dot ((Vec3Q.mk 3 4 0).sub (Vec3Q.mk 0 0 0))
      ((Vec3Q.mk 3 4 0).sub (Vec3Q.mk 0 0 0))) ∧
    ((LookTransform.mk (Vec3Q.mk 0 0 0).toF (Vec3Q.mk 3 4 0).toF
        (Vec3Q.mk 0 1 0).toF true).look_direction = none ↔
      Vec3Q.mk 0 0 0 = Vec3Q.mk 3 4 0) ∧
    (LookTransform.mk (Vec3Q.mk 0 0 0).toF (Vec3Q.mk 3 4 0).toF
        (Vec3Q.mk 0 1 0).toF true).look_direction =
      some ((((Vec3Q.mk 3 4 0).sub (Vec3Q.mk 0 0 0)).smul (1/5)).toF) :=
  ⟨by norm_num [Vec3Q.sub, Vec3Q.dot],
   (look_direction_spec (Vec3Q.mk 0 0 0) (Vec3Q.mk 3 4 0) (Vec3Q.mk 0 1 0).toF true 5
      (by norm_num [Vec3Q.sub, Vec3Q.dot]) (by norm_num)).1,
   ((look_direction_spec (Vec3Q.mk 0 0 0) (Vec3Q.mk 3 4 0) (Vec3Q.mk 0 1 0).toF true 5
      (by norm_num [Vec3Q.sub, Vec3Q.dot]) (by norm_num)).2
      (by simp [Vec3Q.mk.injEq])).1⟩

theorem Vec3Q.dot_comm (a b : Vec3Q) : a.dot b = b.dot a := by
  unfold Vec3Q.dot
  ring

theorem Vec3Q.dot_smul_left (a b : Vec3Q) (k : ℚ) :
    Vec3Q.dot (a.smul k) b = k * Vec3Q.dot a b := by
  unfold Vec3Q.dot Vec3Q.smul
  ring

theorem Vec3Q.cross_dot_left (a b : Vec3Q) : Vec3Q.dot (a.cross b) a = 0 := by
  unfold Vec3Q.dot Vec3Q.cross
  ring

theorem Vec3Q.cross_dot_right (a b : Vec3Q) : Vec3Q.dot (a.cross b) b = 0 := by
  unfold Vec3Q.dot Vec3Q.cross
  ring

theorem Vec3Q.dot_cross_self (a b : Vec3Q) :
    Vec3Q.dot (a.cross b) (a.cross b) =
      Vec3Q.dot a a * Vec3Q.dot b b - Vec3Q.dot a b * Vec3Q.dot a b := by
  unfold Vec3Q.dot Vec3Q.cross
  ring

theorem Vec3F.normalize_toF (v : Vec3Q) (s : ℚ) (hpos : 0 < s)
    (hs : s * s = Vec3Q.dot v v) : (v.toF).normalize = (v.smul (1/s)).toF := by
  unfold Vec3F.normalize Vec3F.length_recip F.recip
  rw [Vec3F.sqrt_dot_toF v s (le_of_lt hpos) hs]
  rw [show F.div (.fin 1) (.fin s) = .fin (1/s) by simp [F.div, hpos.ne']]
  exact Vec3F.scale_toF v (1/s)

/-- C7 (amended): for every look transform with `eye != target` whose up
vector is not parallel to the look direction (both exhibited exact lengths
positive), the conversion yields translation `eye`, forward axis the unit
look vector toward the target, and an orthonormal orientation basis — even
when the supplied up vector was not orthogonal to the look vector. -/
theorem eye_look_at_target_orthonormal
    (e t u lv c r : Vec3Q) (s₁ s₂ : ℚ) (T : TransformM)
    (h₁ : s₁ * s₁ = Vec3Q.dot (t.sub e) (t.sub e)) (h₁p : 0 < s₁)
    (hlv : lv = (t.sub e).smul (1/s₁))
    (hc : c = Vec3Q.cross lv u)
    (h₂ : s₂ * s₂ = Vec3Q.dot c c) (h₂p : 0 < s₂)
    (hr : r = c.smul (1/s₂))
    (hT : T = eye_look_at_target_transform e.toF t.toF u.toF) :
    T.translation = e.toF ∧
    T.forward = lv.toF ∧
    T.right = r.toF ∧
    T.up = (Vec3Q.cross r lv).toF ∧
    Vec3F.dot T.right T.right = .fin 1 ∧
    Vec3F.dot T.up T.up = .fin 1 ∧
    Vec3F.dot T.forward T.forward = .fin 1 ∧
    Vec3F.dot T.right T.up = .fin 0 ∧
    Vec3F.dot T.right T.forward = .fin 0 ∧
    Vec3F.dot T.up T.forward = .fin 0 := by
  have qlvlv : Vec3Q.dot lv lv = 1 := by
    rw [hlv, Vec3Q.dot_smul_smul, ← h₁]
    field_simp
  have hA : Vec3F.sub t.toF e.toF = (t.sub e).toF := Vec3F.sub_toF t e
  have hB : ((t.sub e).toF).normalize = lv.toF := by
    rw [Vec3F.normalize_toF (t.sub e) s₁ h₁p h₁, ← hlv]
  have hC : Vec3F.add e.toF lv.toF = (e.add lv).toF := Vec3F.add_toF e lv
  have hD : Vec3F.sub (e.add lv).toF e.toF = lv.toF := by
    rw [Vec3F.sub_toF]
    congr 1
    cases e
    cases lv
    simp only [Vec3Q.add, Vec3Q.sub, Vec3Q.mk.injEq]
    refine ⟨by ring, by ring, by ring⟩
  have hE : (lv.toF).normalize = lv.toF := by
    rw [Vec3F.normalize_toF lv 1 one_pos (by rw [qlvlv]; norm_num)]
    congr 1
    cases lv
    simp [Vec3Q.smul]
  have hF : Vec3F.cross lv.toF u.toF = c.toF := by rw [Vec3F.cross_toF, ← hc]
  have hG : (c.toF).normalize = r.toF := by
    rw [Vec3F.normalize_toF c s₂ h₂p h₂, ← hr]
  have hT2 : eye_look_at_target_transform e.toF t.toF u.toF =
      { translation := e.toF, right := r.toF, up := (Vec3Q.cross r lv).toF,
        forward := lv.toF } := by
    simp only [eye_look_at_target_transform, TransformM.looking_at,
      TransformM.from_translation]
    rw [hA, hB, hC, hD, hE, hF, hG, Vec3F.cross_toF]
  have qrr : Vec3Q.dot r r = 1 := by
    rw [hr, Vec3Q.dot_smul_smul, ← h₂]
    field_simp
  have qrlv : Vec3Q.dot r lv = 0 := by
    rw [hr, Vec3Q.dot_smul_left, hc, Vec3Q.cross_dot_left, mul_zero]
  have qupup : Vec3Q.dot (Vec3Q.cross r lv) (Vec3Q.cross r lv) = 1 := by
    rw [Vec3Q.dot_cross_self, qrr, qlvlv, qrlv]
    ring
  have qrup : Vec3Q.dot r (Vec3Q.cross r lv) = 0 := by
    rw [Vec3Q.dot_comm, Vec3Q.cross_dot_left]
  have quplv : Vec3Q.dot (Vec3Q.cross r lv) lv = 0 := Vec3Q.cross_dot_right r lv
  subst hT
  rw [hT2]
  refine ⟨rfl, rfl, rfl, rfl, ?_, ?_, ?_, ?_, ?_, ?_⟩
  · show Vec3F.dot r.toF r.toF = .fin 1
    rw [Vec3F.dot_toF, qrr]
  · show Vec3F.dot (Vec3Q.cross r lv).toF (Vec3Q.cross r lv).toF = .fin 1
    rw [Vec3F.dot_toF, qupup]
  · show Vec3F.dot lv.toF lv.toF = .fin 1
    rw [Vec3F.dot_toF, qlvlv]
  · show Vec3F.dot r.toF (Vec3Q.cross r lv).toF = .fin 0
    rw [Vec3F.dot_toF, qrup]
  · show Vec3F.dot r.toF lv.toF = .fin 0
    rw [Vec3F.dot_toF, qrlv]
  · show Vec3F.dot (Vec3Q.cross r lv).toF lv.toF = .fin 0
    rw [Vec3F.dot_toF, quplv]

theorem eye_look_at_target_orthonormal_witness :
    ((5:ℚ) * 5 = Vec3Q.dot ((Vec3Q.mk 0 0 0).sub (Vec3Q.mk 0 0 5))
        ((Vec3Q.mk 0 0 0).sub (Vec3Q.mk 0 0 5))) ∧
    (eye_look_at_target_transform (Vec3Q.mk 0 0 5).toF (Vec3Q.mk 0 0 0).toF
        (Vec3Q.mk 0 1 0).toF).translation = (Vec3Q.mk 0 0 5).toF ∧
    (eye_look_at_target_transform (Vec3Q.mk 0 0 5).toF (Vec3Q.mk 0 0 0).toF
        (Vec3Q.mk 0 1 0).toF).forward = (Vec3Q.mk 0 0 (-1)).toF ∧
    (eye_look_at_target_transform (Vec3Q.mk 0 0 5).toF (Vec3Q.mk 0 0 0).toF
        (Vec3Q.mk 0 1 0).toF).right = (Vec3Q.mk 1 0 0).toF ∧
    (eye_look_at_target_transform (Vec3Q.mk 0 0 5).toF (Vec3Q.mk 0 0 0).toF
        (Vec3Q.mk 0 1 0).toF).up = (Vec3Q.mk 0 1 0).toF ∧
    Vec3F.dot (eye_look_at_target_transform (Vec3Q.mk 0 0 5).toF
        (Vec3Q.mk 0 0 0).toF (Vec3Q.mk 0 1 0).toF).right
      (eye_look_at_target_transform (Vec3Q.mk 0 0 5).toF (Vec3Q.mk 0 0 0).toF
        (Vec3Q.mk 0 1 0).toF).right = .fin 1 ∧
    Vec3F.dot (eye_look_at_target_transform (Vec3Q.mk 0 0 5).toF
        (Vec3Q.mk 0 0 0).toF (Vec3Q.mk 0 1 0).toF).up
      (eye_look_at_target_transform (Vec3Q.mk 0 0 5).toF (Vec3Q.mk 0 0 0).toF
        (Vec3Q.mk 0 1 0).toF).up = .fin 1 ∧
    Vec3F.dot (eye_look_at_target_transform (Vec3Q.mk 0 0 5).toF
        (Vec3Q.mk 0 0 0).toF (Vec3Q.mk 0 1 0).toF).forward
      (eye_look_at_target_transform (Vec3Q.mk 0 0 5).toF (Vec3Q.mk 0 0 0).toF
        (Vec3Q.mk 0 1 0).toF).forward = .fin 1 := by
  have h := eye_look_at_target_orthonormal (Vec3Q.mk 0 0 5) (Vec3Q.mk 0 0 0)
    (Vec3Q.mk 0 1 0) (Vec3Q.mk 0 0 (-1)) (Vec3Q.mk 1 0 0) (Vec3Q.mk 1 0 0) 5 1
    (eye_look_at_target_transform (Vec3Q.mk 0 0 5).toF (Vec3Q.mk 0 0 0).toF
      (Vec3Q.mk 0 1 0).toF)
    (by norm_num [Vec3Q.sub, Vec3Q.dot]) (by norm_num)
    (by norm_num [Vec3Q.sub, Vec3Q.smul])
    (by norm_num [Vec3Q.cross])
    (by norm_num [Vec3Q.dot]) (by norm_num)
    (by norm_num [Vec3Q.smul]) rfl
  have hup : Vec3Q.cross (Vec3Q.mk 1 0 0) (Vec3Q.mk 0 0 (-1)) = Vec3Q.mk 0 1 0 := by
    norm_num [Vec3Q.cross]
  rw [hup] at h
  exact ⟨by norm_num [Vec3Q.sub, Vec3Q.dot], h.1, h.2.1, h.2.2.1, h.2.2.2.1,
    h.2.2.2.2.1, h.2.2.2.2.2.1, h.2.2.2.2.2.2.1⟩

/-- C7 counterexample: with `eye = (0,0,0) != target = (0,0,1)` but `up`
parallel to the look direction, the orientation basis is NaN, not
orthonormal, refuting the claim as stated for every `eye != target`. -/
theorem eye_look_at_target_parallel_up_not_orthonormal :
    ((Vec3Q.mk 0 0 0).toF ≠ (Vec3Q.mk 0 0 1).toF) ∧
    Vec3F.dot (eye_look_at_target_transform (Vec3Q.mk 0 0 0).toF
        (Vec3Q.mk 0 0 1).toF (Vec3Q.mk 0 0 1).toF).right
      (eye_look_at_target_transform (Vec3Q.mk 0 0 0).toF
        (Vec3Q.mk 0 0 1).toF (Vec3Q.mk 0 0 1).toF).right ≠ .fin 1 ∧
    Vec3F.hasNaN (eye_look_at_target_transform (Vec3Q.mk 0 0 0).toF
        (Vec3Q.mk 0 0 1).toF (Vec3Q.mk 0 0 1).toF).right = true := by
  refine ⟨?_, ?_, ?_⟩
  · simp [Vec3Q.toF, Vec3F.mk.injEq]
  · norm_num [eye_look_at_target_transform, TransformM.looking_at,
      TransformM.from_translation, Vec3F.normalize, Vec3F.length_recip, Vec3F.length,
      Vec3F.scale, Vec3F.dot, Vec3F.cross, Vec3F.add, Vec3F.sub, Vec3Q.toF,
      F.sqrt, F.recip, F.div, F.mul, F.add, F.sub, F.neg, ratSqrt_zero, ratSqrt_one]
    decide
  · norm_num [eye_look_at_target_transform, TransformM.looking_at,
      TransformM.from_translation, Vec3F.hasNaN, Vec3F.normalize, Vec3F.length_recip,
      Vec3F.length, Vec3F.scale, Vec3F.dot, Vec3F.cross, Vec3F.add, Vec3F.sub,
      Vec3Q.toF, F.sqrt, F.recip, F.div, F.mul, F.add, F.sub, F.neg, F.isNaN,
      ratSqrt_zero, ratSqrt_one]

/-- C1: evaluating the conversion at the claim's degenerate input
`eye = target = (1,1,1)`, `up = (0,1,0)`: the output transform DOES contain
NaN (the whole rotation basis is NaN, translation stays `(1,1,1)`); the code
propagates `normalize((0,0,0)) = (0,0,0) * (1/0) = NaN` instead of
substituting a fallback direction. -/
theorem eye_look_at_target_coincident_nan :
    (eye_look_at_target_transform (Vec3Q.mk 1 1 1).toF (Vec3Q.mk 1 1 1).toF
      (Vec3Q.mk 0 1 0).toF).hasNaN = true ∧
    (eye_look_at_target_transform (Vec3Q.mk 1 1 1).toF (Vec3Q.mk 1 1 1).toF
      (Vec3Q.mk 0 1 0).toF).translation = (Vec3Q.mk 1 1 1).toF := by
  constructor
  · norm_num [eye_look_at_target_transform, TransformM.looking_at,
      TransformM.from_translation, TransformM.hasNaN, Vec3F.hasNaN, Vec3F.normalize,
      Vec3F.length_recip, Vec3F.length, Vec3F.scale, Vec3F.dot, Vec3F.cross,
      Vec3F.add, Vec3F.sub, Vec3Q.toF, F.sqrt, F.recip, F.div, F.mul, F.add, F.sub,
      F.neg, F.isNaN, ratSqrt_zero]
  · rfl
